import Mathlib

/-!
Shallow embedding of proconverter-lemons (src/app.py): a Flask service that
converts Procreate .brushset archives into collections of qualifying PNG
stamps, accumulates results across a client-driven multi-file session, and
gates sessions behind the Lemon Squeezy licensing API.

External effects are modelled explicitly:
* the Lemon Squeezy API is a parameter of each request (ServiceResp for the
  validation GET, a Bool for whether the usage-increment PATCH succeeds);
* the uploads folder is a ServerState value: the per-session directories,
  each holding its key_id.txt and its stored artifact files;
* uuid4().hex is a parameter uuid : Nat -> String consumed left to right;
  the counter field of ServerState is the position already consumed;
* secure_filename is modelled as the identity (no claim involves path
  sanitization);
* os.listdir is modelled as returning creation order; the packaging loop
  itself does not sort, which is what the ordering claims are about;
* the partially created empty zip file left behind when os.listdir raises
  on a missing session directory is not modelled (no claim concerns it).
-/

/-- Attributes of a Lemon Squeezy license key that the route reads. -/
structure KeyData where
  id : String
  status : String
  activation_limit : Option Nat
  uses : Nat
deriving DecidableEq

/-- Outcome of the GET license-keys call inside validate_license_key. -/
inductive ServiceResp where
  | found : KeyData → ServiceResp
  | empty : ServiceResp
  | httpError : String → ServiceResp
  | netError : ServiceResp
deriving DecidableEq

/-- Lines 20-69 of app.py: validate a license key against the service,
returning either the key record or the user-facing error message. The
apiKey argument is the LEMONSQUEEZY_API_KEY configuration value. -/
def validate_license_key (apiKey : Option String) (resp : ServiceResp) :
    Except String KeyData :=
  match apiKey with
  | none => .error "Server configuration error: API Key is missing."
  | some _ =>
    match resp with
    | .found kd => .ok kd
    | .empty => .error "The provided license key is not valid or could not be found."
    | .httpError d => .error ("API Error: " ++ d)
    | .netError => .error "Could not connect to the license server."

/-- Lines 71-97 of app.py: PATCH the usage increment; a RequestException is
caught and logged, yielding none rather than an error to the caller. -/
def increment_license_usage (callSucceeds : Bool) (_keyId : String) : Option Unit :=
  if callSucceeds then some () else none

/-- What PIL exposes of a decoded image and the route reads; mode is the PIL
mode string ("L" for a single-channel image, "RGBA" for color plus alpha). -/
structure ImgInfo where
  width : Nat
  height : Nat
  mode : String
deriving DecidableEq

/-- One extracted zip entry: its file name and its decoded form (none when
Image.open raises IOError or SyntaxError on it). -/
structure Entry where
  name : String
  image : Option ImgInfo
deriving DecidableEq

/-- An uploaded file: either not a well-formed zip, or its entry list. -/
inductive Archive where
  | badZip : Archive
  | ok : List Entry → Archive
deriving DecidableEq

/-- Python str.lower restricted to what the code compares (ASCII case). -/
def strLower (s : String) : String := ⟨s.data.map Char.toLower⟩

/-- Python str.endswith: the suffix test on the character sequence. -/
def strEndsWith (s t : String) : Bool := t.data.isSuffixOf s.data

/-- Line 113 of app.py: the extension guard applied before Image.open. -/
def hasImageExt (name : String) : Bool :=
  strEndsWith (strLower name) ".png" || strEndsWith (strLower name) ".jpg" ||
    strEndsWith (strLower name) ".jpeg"

/-- Lines 113-118 of app.py: an entry contributes a brush image when it has
an image extension, decodes, is at least 1024 pixels in both axes and is not
the artwork.png preview. -/
def qualifies (e : Entry) : Bool :=
  hasImageExt e.name &&
    match e.image with
    | none => false
    | some img =>
        decide (1024 ≤ img.width) && decide (1024 ≤ img.height) &&
          (strLower e.name != "artwork.png")

/-- Observable side effects of one request, in program order. -/
inductive Event where
  | licenseCheck : Event
  | createSessionDir : String → Event
  | writeKeyId : String → String → Event
  | saveUpload : Event
  | createTempDir : Event
  | extractAll : Event
  | removeTempDir : Event
  | moveArtifact : String → String → Event
  | writeArchive : String → List String → Event
  | settle : String → String → Bool → Event
  | removeSessionDir : String → Event
deriving DecidableEq

/-- The route's possible results: a 4xx json error, an uncaught exception
(surfaced by Flask as a 500), the mid-session acknowledgement, or the final
download message. -/
inductive Response where
  | clientError : Nat → String → Response
  | serverError : Response
  | okAwait : Response
  | okDownload : String → Response
deriving DecidableEq

/-- Lines 100-130 of app.py: extract the upload into a fresh scratch
directory and walk it for qualifying images. Result components: the
qualifying entries, the error message, whether the scratch directory is
handed back to the caller (still on disk), and the side effects. -/
def process_brushset (a : Archive) :
    Option (List Entry) × Option String × Bool × List Event :=
  match a with
  | .badZip =>
      (none,
       some "Error: The uploaded file is not a valid .brushset (it appears to be a corrupt zip file).",
       false, [.createTempDir, .removeTempDir])
  | .ok entries =>
      (some (entries.filter qualifies), none, true, [.createTempDir, .extractAll])

/-- One session directory: the key_id.txt payload when present, and the moved
artifact files (stored name, unchanged image content) in creation order. -/
structure SessionState where
  keyId : Option String
  artifacts : List (String × Option ImgInfo)
deriving DecidableEq

/-- The uploads folder: the per-session directories and the position already
consumed in the uuid4 stream. -/
structure ServerState where
  sessions : String → Option SessionState
  counter : Nat

/-- A fresh server: no session directories, nothing consumed. -/
def ServerState.init : ServerState := ⟨fun _ => none, 0⟩

/-- The form fields of one /convert-single request. -/
structure Request where
  license_key : Option String
  session_id : String
  is_first_file : Bool
  is_last_file : Bool
  brush_file : Option Archive

/-- The behaviour of the external license service during one request. -/
structure Env where
  licenseResp : ServiceResp
  settleOk : Bool

/-- Lines 145-162 of app.py: the first-file license gate, up to but excluding
the session-directory creation. The error alternative carries the HTTP error
response and the side effects performed before returning. -/
def first_file_gate (cfg : Option String) (resp : ServiceResp)
    (key : Option String) : Except (Response × List Event) KeyData :=
  match key with
  | none => .error (.clientError 400 "License Key is required.", [])
  | some _ =>
    match validate_license_key cfg resp with
    | .error msg => .error (.clientError 400 msg, [.licenseCheck])
    | .ok kd =>
      if kd.status != "active" then
        .error (.clientError 403 ("This license key is " ++ kd.status ++ "."),
                [.licenseCheck])
      else
        match kd.activation_limit with
        | some limit =>
          if limit ≤ kd.uses then
            .error (.clientError 403 "This license key has reached its usage limit.",
                    [.licenseCheck])
          else .ok kd
        | none => .ok kd

/-- Lines 164-170 of app.py: create (or reuse, via exist_ok) the session
directory and write key_id.txt into it; existing artifacts survive. -/
def addKey (st : ServerState) (sid kid : String) : ServerState :=
  ⟨fun x =>
     if x == sid then
       some ⟨some kid, ((st.sessions sid).map SessionState.artifacts).getD []⟩
     else st.sessions x,
   st.counter⟩

/-- Lines 191-193 of app.py: move each qualifying image into the session
directory under a fresh uuid4-derived .png name. Returns the stored
artifacts, the move events, and the next uuid position. -/
def storeImages (uuid : Nat → String) (sid : String) :
    Nat → List Entry → List (String × Option ImgInfo) × List Event × Nat
  | c, [] => ([], [], c)
  | c, e :: rest =>
    let nm := uuid c ++ ".png"
    let r := storeImages uuid sid (c + 1) rest
    ((nm, e.image) :: r.1, Event.moveArtifact sid nm :: r.2.1, r.2.2)

/-- Contents of a session directory as os.listdir reports them, in creation
order: key_id.txt when present, then the stored artifacts. -/
def listSessionDir (s : SessionState) : List String :=
  (match s.keyId with | some _ => ["key_id.txt"] | none => []) ++
    s.artifacts.map Prod.fst

/-- Lines 202-205 of app.py: the packaging loop writes exactly the .png
entries of the directory listing into the final zip, in listing order; the
loop performs no sorting. -/
def package_entries (listing : List String) : List String :=
  listing.filter (fun n => strEndsWith n ".png")

/-- Lines 172-223 of app.py: everything after the license gate: save the
upload, extract and filter it, move qualifying images into the session
directory and, when the request is flagged as the last file, package the
session, settle the license usage and remove the session directory. -/
def handle_upload (uuid : Nat → String) (sOk : Bool) (req : Request)
    (st : ServerState) : Response × ServerState × List Event :=
  match req.brush_file with
  | none => (.clientError 400 "No file was provided in the request.", st, [])
  | some archive =>
    match process_brushset archive with
    | (_, some msg, _, pev) => (.clientError 400 msg, st, Event.saveUpload :: pev)
    | (imgs, none, _, pev) =>
      let images := imgs.getD []
      match st.sessions req.session_id with
      | none =>
        if images.isEmpty then
          (if req.is_last_file then Response.serverError else Response.okAwait, st,
            Event.saveUpload :: pev ++ [Event.removeTempDir])
        else (.serverError, st, Event.saveUpload :: pev)
      | some sess =>
        let r := storeImages uuid req.session_id st.counter images
        let sess2 : SessionState := ⟨sess.keyId, sess.artifacts ++ r.1⟩
        let evs := Event.saveUpload :: pev ++ r.2.1 ++ [Event.removeTempDir]
        if req.is_last_file then
          let entries := package_entries (listSessionDir sess2)
          let sevs :=
            match sess2.keyId with
            | some k =>
              let _r := increment_license_usage sOk k
              [Event.settle req.session_id k sOk]
            | none => []
          (.okDownload ("/download-zip/converted_" ++ req.session_id ++ ".zip"),
           ⟨fun x => if x == req.session_id then none else st.sessions x, r.2.2⟩,
           evs ++ Event.writeArchive req.session_id entries :: sevs ++
             [Event.removeSessionDir req.session_id])
        else
          (.okAwait,
           ⟨fun x => if x == req.session_id then some sess2 else st.sessions x, r.2.2⟩,
           evs)

/-- Lines 137-223 of app.py: the /convert-single route. -/
def convert_single (cfg : Option String) (uuid : Nat → String) (env : Env)
    (req : Request) (st : ServerState) : Response × ServerState × List Event :=
  if req.is_first_file then
    match first_file_gate cfg env.licenseResp req.license_key with
    | .error r => (r.1, st, r.2)
    | .ok kd =>
      let r := handle_upload uuid env.settleOk req (addKey st req.session_id kd.id)
      (r.1, r.2.1,
       Event.licenseCheck :: Event.createSessionDir req.session_id ::
         Event.writeKeyId req.session_id kd.id :: r.2.2)
  else handle_upload uuid env.settleOk req st

/-- Fold one request into the accumulated server state and event log. -/
def runStep (cfg : Option String) (uuid : Nat → String)
    (acc : ServerState × List Event) (er : Env × Request) :
    ServerState × List Event :=
  let r := convert_single cfg uuid er.1 er.2 acc.1
  (r.2.1, acc.2 ++ r.2.2)

/-- A sequence of requests processed against a fresh server. -/
def run (cfg : Option String) (uuid : Nat → String)
    (steps : List (Env × Request)) : ServerState × List Event :=
  steps.foldl (runStep cfg uuid) (ServerState.init, [])

/-- The later (non-first) requests of a session feeding the given units in
sequence; only the last unit carries the last-file flag. -/
def laterSteps (env : Env) (sid : String) :
    List (List Entry) → List (Env × Request)
  | [] => []
  | [u] => [(env, ⟨none, sid, false, true, some (.ok u)⟩)]
  | u :: u2 :: rest =>
    (env, ⟨none, sid, false, false, some (.ok u)⟩) :: laterSteps env sid (u2 :: rest)

/-- A whole session: the first request carries the license key and the
first-file flag, the last one the last-file flag. -/
def sessionSteps (env : Env) (sid key : String) :
    List (List Entry) → List (Env × Request)
  | [] => []
  | [u] => [(env, ⟨some key, sid, true, true, some (.ok u)⟩)]
  | u :: u2 :: rest =>
    (env, ⟨some key, sid, true, false, some (.ok u)⟩) :: laterSteps env sid (u2 :: rest)

/-- Number of qualifying images contributed by a list of units. -/
def totalQualifying (units : List (List Entry)) : Nat :=
  (units.map (fun u => (u.filter qualifies).length)).sum

/-- The uuid-derived stored names for k images starting at stream position c. -/
def namesFrom (uuid : Nat → String) : Nat → Nat → List String
  | _, 0 => []
  | c, k + 1 => (uuid c ++ ".png") :: namesFrom uuid (c + 1) k

/-- Recognizer for a settlement event belonging to the given session. -/
def isSettleFor (sid : String) : Event → Bool
  | .settle s _ _ => s == sid
  | _ => false

/-- Recognizer for a request opening the given session. -/
def isFirstFor (sid : String) (er : Env × Request) : Bool :=
  er.2.is_first_file && (er.2.session_id == sid)

/-- One when the given session directory holds a key_id.txt, else zero. -/
def hasKeyN (st : ServerState) (sid : String) : Nat :=
  match st.sessions sid with
  | some s => if s.keyId.isSome then 1 else 0
  | none => 0

/-! Helper lemmas about the qualifier and the packaging filter. -/

/-- Unfolding of the qualifying test into its five conjuncts. -/
lemma qualifies_iff (e : Entry) :
    qualifies e = true ↔
      (hasImageExt e.name = true ∧ ∃ i, e.image = some i ∧ 1024 ≤ i.width ∧
        1024 ≤ i.height ∧ strLower e.name ≠ "artwork.png") := by
  obtain ⟨nm, img⟩ := e
  cases img with
  | none => simp only [qualifies, Bool.and_false]; simp
  | some i =>
      simp only [qualifies]
      simp [Bool.and_eq_true, decide_eq_true_eq, bne_iff_ne, and_assoc]

/-- Appending the .png suffix always passes the packaging filter. -/
lemma strEndsWith_append_png (s : String) : strEndsWith (s ++ ".png") ".png" = true := by
  simp [strEndsWith, List.isSuffixOf_iff_suffix]

/-- The stored-name builder is injective in its stem. -/
lemma append_png_inj {a b : String} (h : a ++ ".png" = b ++ ".png") : a = b := by
  apply String.ext
  have h2 : a.data ++ ".png".data = b.data ++ ".png".data := by
    simpa using congrArg String.data h
  exact List.append_cancel_right h2

/-- C2: the spec claims an anti-zip-bomb entry-count bound checked before
extraction; the code has no such bound. As amended: a well-formed archive is
always fully extracted, whatever its entry count, and the only inspection
error is the corrupt-zip one. -/
theorem c2_no_entry_bound :
    (∀ entries : List Entry,
        (process_brushset (Archive.ok entries)).2.1 = none ∧
        Event.extractAll ∈ (process_brushset (Archive.ok entries)).2.2.2) ∧
    (∀ (a : Archive) (msg : String), (process_brushset a).2.1 = some msg →
        a = Archive.badZip) := by
  constructor
  · intro entries
    exact ⟨rfl, by simp [process_brushset]⟩
  · intro a msg h
    cases a with
    | badZip => rfl
    | ok entries => simp [process_brushset] at h

/-- Witness for c2_no_entry_bound at concrete inputs. -/
theorem c2_no_entry_bound_witness :
    (process_brushset (Archive.ok [⟨"a.png", some ⟨2048, 2048, "RGB"⟩⟩])).2.1 = none ∧
    Archive.badZip = Archive.badZip :=
  ⟨(c2_no_entry_bound.1 [⟨"a.png", some ⟨2048, 2048, "RGB"⟩⟩]).1,
   c2_no_entry_bound.2 Archive.badZip
     "Error: The uploaded file is not a valid .brushset (it appears to be a corrupt zip file)." rfl⟩

/-- C2 counterexample: an archive with one hundred thousand entries is
extracted without any too-many-entries rejection. -/
theorem c2_entry_bound_counterexample :
    (process_brushset (Archive.ok (List.replicate 100000 ⟨"x.txt", none⟩))).2.1 = none ∧
    Event.extractAll ∈
      (process_brushset (Archive.ok (List.replicate 100000 ⟨"x.txt", none⟩))).2.2.2 :=
  ⟨rfl, (by simp : Event.extractAll ∈ [Event.createTempDir, Event.extractAll])⟩

/-- C5 as amended: the packaging loop writes the .png entries of the
directory listing in listing order; it keeps relative order (a sublist of
the listing), keeps exactly the .png names, and is the identity on listings
that are all .png files. It does not sort. -/
theorem c5_listing_order (l : List String) :
    List.Sublist (package_entries l) l ∧
    (∀ x, x ∈ package_entries l ↔ x ∈ l ∧ strEndsWith x ".png" = true) ∧
    ((∀ x ∈ l, strEndsWith x ".png" = true) → package_entries l = l) := by
  refine ⟨List.filter_sublist l, ?_, ?_⟩
  · intro x
    simp [package_entries, List.mem_filter]
  · intro h
    exact List.filter_eq_self.mpr h

/-- Witness for c5_listing_order at a concrete listing. -/
theorem c5_listing_order_witness : package_entries ["a.png"] = ["a.png"] :=
  (c5_listing_order ["a.png"]).2.2 (by decide)

/-- C5 counterexample: the same set of stored names in two listing orders is
packaged in two different entry orders, and the first output is not in
lexicographic order; packaging is listing-order, not sorted. -/
theorem c5_order_counterexample :
    package_entries ["b.png", "a.png"] = ["b.png", "a.png"] ∧
    package_entries ["a.png", "b.png"] = ["a.png", "b.png"] ∧
    ("b.png" :: "a.png" :: ([] : List String)).Perm ("a.png" :: "b.png" :: []) ∧
    "a.png".data < "b.png".data ∧
    package_entries ["b.png", "a.png"] ≠ ["a.png", "b.png"] :=
  ⟨by decide, by decide, List.Perm.swap "a.png" "b.png" [], by decide, by decide⟩

/-- C6 as amended: an entry is emitted exactly when it has a png, jpg or
jpeg extension (case-insensitively), decodes as an image, is at least
1024x1024, and is not named artwork.png; any archive holding such an entry
yields a non-empty result, every member of which meets the dimension
threshold. -/
theorem c6_qualify_characterization :
    (∀ e : Entry, qualifies e = true ↔
        (hasImageExt e.name = true ∧ ∃ i, e.image = some i ∧ 1024 ≤ i.width ∧
          1024 ≤ i.height ∧ strLower e.name ≠ "artwork.png")) ∧
    (∀ (entries : List Entry) (e : Entry), e ∈ entries → qualifies e = true →
        (process_brushset (Archive.ok entries)).1 = some (entries.filter qualifies) ∧
        entries.filter qualifies ≠ []) ∧
    (∀ (entries : List Entry) (e : Entry), e ∈ entries.filter qualifies →
        ∃ i, e.image = some i ∧ 1024 ≤ i.width ∧ 1024 ≤ i.height) := by
  refine ⟨qualifies_iff, ?_, ?_⟩
  · intro entries e he hq
    exact ⟨rfl, List.ne_nil_of_mem (List.mem_filter.mpr ⟨he, hq⟩)⟩
  · intro entries e he
    obtain ⟨-, hq⟩ := List.mem_filter.mp he
    obtain ⟨-, i, hi, hw, hh, -⟩ := (qualifies_iff e).mp hq
    exact ⟨i, hi, hw, hh⟩

/-- Witness for c6_qualify_characterization at a concrete archive. -/
theorem c6_qualify_witness :
    (process_brushset (Archive.ok [⟨"brush.png", some ⟨2048, 2048, "RGB"⟩⟩])).1 =
      some ([⟨"brush.png", some ⟨2048, 2048, "RGB"⟩⟩].filter qualifies) ∧
    ([(⟨"brush.png", some ⟨2048, 2048, "RGB"⟩⟩ : Entry)].filter qualifies) ≠ [] :=
  c6_qualify_characterization.2.1 [⟨"brush.png", some ⟨2048, 2048, "RGB"⟩⟩]
    ⟨"brush.png", some ⟨2048, 2048, "RGB"⟩⟩ (by decide) (by decide)

/-- C6 counterexample: a decodable 2048x2048 image that is not the excluded
artwork.png is still not emitted, because its extension is not one of png,
jpg, jpeg; the claimed if-and-only-if fails, and so does the claimed
non-emptiness. -/
theorem c6_qualify_counterexample :
    qualifies ⟨"big.bmp", some ⟨2048, 2048, "RGB"⟩⟩ = false ∧
    1024 ≤ 2048 ∧ strLower "big.bmp" ≠ "artwork.png" ∧
    (process_brushset (Archive.ok [⟨"big.bmp", some ⟨2048, 2048, "RGB"⟩⟩])).1 = some [] :=
  ⟨by decide, by decide, by decide, by decide⟩

/-- C10: only names ending in .png, .jpg or .jpeg (case-insensitively) are
ever opened or emitted by the qualifier; a file with any other extension is
never a qualifying image, whatever its content or dimensions. -/
theorem c10_extension_filter :
    (∀ e : Entry, qualifies e = true → hasImageExt e.name = true) ∧
    (∀ e : Entry, hasImageExt e.name = false → qualifies e = false) ∧
    (∀ (entries l : List Entry),
        (process_brushset (Archive.ok entries)).1 = some l →
        ∀ e ∈ l, hasImageExt e.name = true) := by
  have h1 : ∀ e : Entry, qualifies e = true → hasImageExt e.name = true :=
    fun e h => ((qualifies_iff e).mp h).1
  refine ⟨h1, ?_, ?_⟩
  · intro e h
    cases hq : qualifies e with
    | false => rfl
    | true => rw [h1 e hq] at h; cases h
  · intro entries l hl e he
    have hl2 : l = entries.filter qualifies := by
      simpa [process_brushset] using hl.symm
    subst hl2
    exact h1 e (List.mem_filter.mp he).2

/-- Witness for c10_extension_filter: a huge decodable gif is not emitted. -/
theorem c10_extension_filter_witness :
    qualifies ⟨"big.gif", some ⟨4096, 4096, "RGB"⟩⟩ = false :=
  c10_extension_filter.2.1 ⟨"big.gif", some ⟨4096, 4096, "RGB"⟩⟩ (by decide)

/-- Every branch of handle_upload, with the exact result tuple. -/
lemma handle_upload_shape (uuid : Nat → String) (sOk : Bool) (req : Request)
    (st : ServerState) :
    (req.brush_file = none ∧
      handle_upload uuid sOk req st =
        (Response.clientError 400 "No file was provided in the request.", st, [])) ∨
    (∃ msg, req.brush_file = some Archive.badZip ∧
      handle_upload uuid sOk req st =
        (Response.clientError 400 msg, st,
         [Event.saveUpload, Event.createTempDir, Event.removeTempDir])) ∨
    (∃ entries resp, req.brush_file = some (Archive.ok entries) ∧
        st.sessions req.session_id = none ∧
        (resp = Response.serverError ∨ resp = Response.okAwait) ∧
        handle_upload uuid sOk req st =
          (resp, st, [Event.saveUpload, Event.createTempDir, Event.extractAll,
                      Event.removeTempDir])) ∨
    (∃ entries, req.brush_file = some (Archive.ok entries) ∧
        st.sessions req.session_id = none ∧
        handle_upload uuid sOk req st =
          (Response.serverError, st,
           [Event.saveUpload, Event.createTempDir, Event.extractAll])) ∨
    (∃ sess entries, req.is_last_file = false ∧
        st.sessions req.session_id = some sess ∧
        req.brush_file = some (Archive.ok entries) ∧
        handle_upload uuid sOk req st =
          (Response.okAwait,
           ⟨fun x => if x == req.session_id then
                some ⟨sess.keyId, sess.artifacts ++
                  (storeImages uuid req.session_id st.counter (entries.filter qualifies)).1⟩
              else st.sessions x,
            (storeImages uuid req.session_id st.counter (entries.filter qualifies)).2.2⟩,
           Event.saveUpload :: Event.createTempDir :: Event.extractAll ::
             (storeImages uuid req.session_id st.counter (entries.filter qualifies)).2.1 ++
               [Event.removeTempDir])) ∨
    (∃ sess entries k, req.is_last_file = true ∧
        st.sessions req.session_id = some sess ∧ sess.keyId = some k ∧
        req.brush_file = some (Archive.ok entries) ∧
        handle_upload uuid sOk req st =
          (Response.okDownload ("/download-zip/converted_" ++ req.session_id ++ ".zip"),
           ⟨fun x => if x == req.session_id then none else st.sessions x,
            (storeImages uuid req.session_id st.counter (entries.filter qualifies)).2.2⟩,
           (Event.saveUpload :: Event.createTempDir :: Event.extractAll ::
             (storeImages uuid req.session_id st.counter (entries.filter qualifies)).2.1 ++
               [Event.removeTempDir]) ++
             Event.writeArchive req.session_id
               (package_entries (listSessionDir ⟨sess.keyId, sess.artifacts ++
                 (storeImages uuid req.session_id st.counter (entries.filter qualifies)).1⟩)) ::
               Event.settle req.session_id k sOk ::
                 [Event.removeSessionDir req.session_id])) ∨
    (∃ sess entries, req.is_last_file = true ∧
        st.sessions req.session_id = some sess ∧ sess.keyId = none ∧
        req.brush_file = some (Archive.ok entries) ∧
        handle_upload uuid sOk req st =
          (Response.okDownload ("/download-zip/converted_" ++ req.session_id ++ ".zip"),
           ⟨fun x => if x == req.session_id then none else st.sessions x,
            (storeImages uuid req.session_id st.counter (entries.filter qualifies)).2.2⟩,
           (Event.saveUpload :: Event.createTempDir :: Event.extractAll ::
             (storeImages uuid req.session_id st.counter (entries.filter qualifies)).2.1 ++
               [Event.removeTempDir]) ++
             Event.writeArchive req.session_id
               (package_entries (listSessionDir ⟨sess.keyId, sess.artifacts ++
                 (storeImages uuid req.session_id st.counter (entries.filter qualifies)).1⟩)) ::
               [Event.removeSessionDir req.session_id])) := by
  obtain ⟨lk, sid, ff, lf, bf⟩ := req
  cases bf with
  | none => exact Or.inl ⟨rfl, by simp only [handle_upload]⟩
  | some a =>
    cases a with
    | badZip =>
        refine Or.inr (Or.inl ⟨"Error: The uploaded file is not a valid .brushset (it appears to be a corrupt zip file).", rfl, ?_⟩)
        simp [handle_upload, process_brushset]
    | ok entries =>
      cases hs : st.sessions sid with
      | none =>
        cases hq : (entries.filter qualifies).isEmpty with
        | true =>
          cases lf with
          | true =>
            refine Or.inr (Or.inr (Or.inl ⟨entries, Response.serverError, rfl, rfl, Or.inl rfl, ?_⟩))
            simp [handle_upload, process_brushset, hs, hq]
          | false =>
            refine Or.inr (Or.inr (Or.inl ⟨entries, Response.okAwait, rfl, rfl, Or.inr rfl, ?_⟩))
            simp [handle_upload, process_brushset, hs, hq]
        | false =>
          refine Or.inr (Or.inr (Or.inr (Or.inl ⟨entries, rfl, rfl, ?_⟩)))
          simp [handle_upload, process_brushset, hs, hq]
      | some sess =>
        cases lf with
        | false =>
          refine Or.inr (Or.inr (Or.inr (Or.inr (Or.inl ⟨sess, entries, rfl, rfl, rfl, ?_⟩))))
          simp [handle_upload, process_brushset, hs]
        | true =>
          cases hk : sess.keyId with
          | some k =>
            refine Or.inr (Or.inr (Or.inr (Or.inr (Or.inr (Or.inl
              ⟨sess, entries, k, rfl, rfl, hk, rfl, ?_⟩)))))
            simp [handle_upload, process_brushset, hs, hk]
          | none =>
            refine Or.inr (Or.inr (Or.inr (Or.inr (Or.inr (Or.inr
              ⟨sess, entries, rfl, rfl, hk, rfl, ?_⟩)))))
            simp [handle_upload, process_brushset, hs, hk]

lemma storeImages_moves (uuid : Nat → String) (sid : String) :
    ∀ (l : List Entry) (c : Nat) (e : Event), e ∈ (storeImages uuid sid c l).2.1 →
      ∃ n, e = Event.moveArtifact sid n := by
  intro l
  induction l with
  | nil => intro c e he; simp [storeImages] at he
  | cons a t ih =>
      intro c e he
      simp only [storeImages, List.mem_cons] at he
      rcases he with he | he
      · exact ⟨_, he⟩
      · exact ih _ e he

lemma storeImages_counter (uuid : Nat → String) (sid : String) :
    ∀ (l : List Entry) (c : Nat), (storeImages uuid sid c l).2.2 = c + l.length := by
  intro l
  induction l with
  | nil => intro c; simp [storeImages]
  | cons a t ih =>
      intro c
      simp only [storeImages, ih, List.length_cons]
      omega

lemma storeImages_fst (uuid : Nat → String) (sid : String) :
    ∀ (l : List Entry) (c : Nat),
      (storeImages uuid sid c l).1.map Prod.fst = namesFrom uuid c l.length := by
  intro l
  induction l with
  | nil => intro c; simp [storeImages, namesFrom]
  | cons a t ih => intro c; simp [storeImages, namesFrom, ih]

lemma storeImages_snd (uuid : Nat → String) (sid : String) :
    ∀ (l : List Entry) (c : Nat),
      (storeImages uuid sid c l).1.map Prod.snd = l.map Entry.image := by
  intro l
  induction l with
  | nil => intro c; simp [storeImages]
  | cons a t ih => intro c; simp [storeImages, ih]

lemma storeImages_no_settle (uuid : Nat → String) (sid sid2 : String)
    (l : List Entry) (c : Nat) :
    (storeImages uuid sid c l).2.1.countP (isSettleFor sid2) = 0 := by
  rw [List.countP_eq_zero]
  intro e he
  obtain ⟨n, rfl⟩ := storeImages_moves uuid sid l c e he
  simp [isSettleFor]

lemma namesFrom_length (uuid : Nat → String) :
    ∀ (k c : Nat), (namesFrom uuid c k).length = k := by
  intro k
  induction k with
  | zero => intro c; rfl
  | succ n ih => intro c; simp [namesFrom, ih]

lemma namesFrom_append (uuid : Nat → String) :
    ∀ (a b c : Nat),
      namesFrom uuid c (a + b) = namesFrom uuid c a ++ namesFrom uuid (c + a) b := by
  intro a
  induction a with
  | zero => intro b c; simp [namesFrom]
  | succ n ih =>
      intro b c
      have h1 : n + 1 + b = (n + b) + 1 := by omega
      have h2 : c + 1 + n = c + (n + 1) := by omega
      rw [h1]
      simp only [namesFrom, ih, List.cons_append]
      rw [h2]

lemma namesFrom_eq_map (uuid : Nat → String) :
    ∀ (k c : Nat),
      namesFrom uuid c k = (List.range k).map (fun j => uuid (c + j) ++ ".png") := by
  intro k
  induction k with
  | zero => intro c; simp [namesFrom]
  | succ n ih =>
      intro c
      rw [List.range_succ_eq_map]
      simp only [namesFrom, List.map_cons, List.map_map, Nat.add_zero]
      refine congrArg₂ List.cons rfl ?_
      rw [ih (c + 1)]
      apply List.map_congr_left
      intro a ha
      simp only [Function.comp_apply]
      have : c + 1 + a = c + (a + 1) := by omega
      rw [this]

lemma namesFrom_png (uuid : Nat → String) (k c : Nat) :
    ∀ x ∈ namesFrom uuid c k, strEndsWith x ".png" = true := by
  intro x hx
  rw [namesFrom_eq_map] at hx
  obtain ⟨j, -, rfl⟩ := List.mem_map.mp hx
  exact strEndsWith_append_png _

lemma namesFrom_nodup (uuid : Nat → String) (k : Nat)
    (hinj : ∀ i j, i < k → j < k → uuid i = uuid j → i = j) :
    (namesFrom uuid 0 k).Nodup := by
  rw [namesFrom_eq_map]
  refine List.Nodup.map_on ?_ (List.nodup_range k)
  intro a ha b hb hab
  simp only [Nat.zero_add] at hab
  exact hinj a b (List.mem_range.mp ha) (List.mem_range.mp hb) (append_png_inj hab)

lemma settle_not_mem_moves {uuid : Nat → String} {s sid k : String} {ok : Bool}
    {c : Nat} {l : List Entry} :
    Event.settle sid k ok ∉ (storeImages uuid s c l).2.1 := by
  intro h
  obtain ⟨n, hn⟩ := storeImages_moves uuid s l c _ h
  cases hn

lemma handle_settle_mem {uuid : Nat → String} {sOk : Bool} {req : Request}
    {st : ServerState} {sid k : String} {ok : Bool}
    (h : Event.settle sid k ok ∈ (handle_upload uuid sOk req st).2.2) :
    req.is_last_file = true ∧ sid = req.session_id ∧ ok = sOk ∧
    (∃ u, (handle_upload uuid sOk req st).1 = Response.okDownload u) ∧
    (∃ l1 es l2, (handle_upload uuid sOk req st).2.2 =
        l1 ++ Event.writeArchive req.session_id es :: l2 ∧
      Event.settle sid k ok ∈ l2) := by
  rcases handle_upload_shape uuid sOk req st with ⟨-, h1⟩ | ⟨msg, -, h1⟩ | ⟨e3, resp, -, -, -, h1⟩ |
    ⟨e4, -, -, h1⟩ |
    ⟨sess, entries, hlast, hsess, hb, h1⟩ | ⟨sess, entries, k2, hlast, hsess, hk, hb, h1⟩ |
    ⟨sess, entries, hlast, hsess, hk, hb, h1⟩
  · rw [h1] at h; simp at h
  · rw [h1] at h; simp at h
  · rw [h1] at h; simp at h
  · rw [h1] at h; simp at h
  · rw [h1] at h
    simp [settle_not_mem_moves] at h
  · rw [h1] at h
    simp only [List.mem_cons, List.mem_append, List.mem_singleton] at h
    have h2 : sid = req.session_id ∧ k = k2 ∧ ok = sOk := by
      rcases h with ((h | h | h | h) | h | h) | h | h | h | h
      · cases h
      · cases h
      · cases h
      · exact absurd h settle_not_mem_moves
      · cases h
      · exact absurd h (List.not_mem_nil _)
      · cases h
      · exact ⟨(Event.settle.inj h).1, (Event.settle.inj h).2.1, (Event.settle.inj h).2.2⟩
      · cases h
      · exact absurd h (List.not_mem_nil _)
    obtain ⟨hsid, hkk, hok⟩ := h2
    subst hsid
    subst hkk
    subst hok
    refine ⟨hlast, rfl, rfl, ⟨_, by rw [h1]⟩, ?_⟩
    refine ⟨_, _, [Event.settle req.session_id k ok, Event.removeSessionDir req.session_id],
      by rw [h1], by simp⟩
  · rw [h1] at h
    simp [settle_not_mem_moves] at h

lemma handle_settle_count (uuid : Nat → String) (sOk : Bool) (req : Request)
    (st : ServerState) (sid : String) :
    ((handle_upload uuid sOk req st).2.2.countP (isSettleFor sid)) ≤ 1 := by
  rcases handle_upload_shape uuid sOk req st with ⟨-, h1⟩ | ⟨msg, -, h1⟩ | ⟨e3, resp, -, -, -, h1⟩ |
    ⟨e4, -, -, h1⟩ |
    ⟨sess, entries, hlast, hsess, hb, h1⟩ | ⟨sess, entries, k2, hlast, hsess, hk, hb, h1⟩ |
    ⟨sess, entries, hlast, hsess, hk, hb, h1⟩ <;>
  rw [h1] <;>
  simp [List.countP_cons, List.countP_append, storeImages_no_settle, isSettleFor] <;>
  split <;> simp

lemma handle_settle_bound (uuid : Nat → String) (sOk : Bool) (req : Request)
    (st : ServerState) (sid : String) :
    ((handle_upload uuid sOk req st).2.2.countP (isSettleFor sid)) +
      hasKeyN (handle_upload uuid sOk req st).2.1 sid ≤ hasKeyN st sid := by
  rcases handle_upload_shape uuid sOk req st with ⟨-, h1⟩ | ⟨msg, -, h1⟩ | ⟨e3, resp, -, -, -, h1⟩ |
    ⟨e4, -, -, h1⟩ |
    ⟨sess, entries, hlast, hsess, hb, h1⟩ | ⟨sess, entries, k2, hlast, hsess, hk, hb, h1⟩ |
    ⟨sess, entries, hlast, hsess, hk, hb, h1⟩
  · rw [h1]; simp [isSettleFor]
  · rw [h1]; simp [List.countP_cons, isSettleFor]
  · rw [h1]; simp [List.countP_cons, isSettleFor]
  · rw [h1]; simp [List.countP_cons, isSettleFor]
  · rw [h1]
    by_cases hx : sid = req.session_id
    · subst hx
      simp [List.countP_cons, List.countP_append, storeImages_no_settle, isSettleFor,
        hasKeyN, hsess]
    · have hx2 : ¬(req.session_id = sid) := fun hh => hx hh.symm
      simp [List.countP_cons, List.countP_append, storeImages_no_settle, isSettleFor,
        hasKeyN, hx, hx2]
  · rw [h1]
    by_cases hx : sid = req.session_id
    · subst hx
      simp [List.countP_cons, List.countP_append, storeImages_no_settle, isSettleFor,
        hasKeyN, hsess, hk]
    · have hx2 : ¬(req.session_id = sid) := fun hh => hx hh.symm
      simp [List.countP_cons, List.countP_append, storeImages_no_settle, isSettleFor,
        hasKeyN, hx, hx2]
  · rw [h1]
    by_cases hx : sid = req.session_id
    · subst hx
      simp [List.countP_cons, List.countP_append, storeImages_no_settle, isSettleFor,
        hasKeyN, hsess, hk]
    · have hx2 : ¬(req.session_id = sid) := fun hh => hx hh.symm
      simp [List.countP_cons, List.countP_append, storeImages_no_settle, isSettleFor,
        hasKeyN, hx, hx2]

lemma first_file_gate_error_cases {cfg : Option String} {resp : ServiceResp}
    {key : Option String} {r : Response × List Event}
    (h : first_file_gate cfg resp key = Except.error r) :
    (∃ c m, r.1 = Response.clientError c m) ∧ (∀ e ∈ r.2, e = Event.licenseCheck) := by
  unfold first_file_gate validate_license_key at h
  repeat' split at h
  all_goals
    first
    | (obtain rfl := Except.error.inj h
       exact ⟨⟨_, _, rfl⟩, by intro e he; simpa using he⟩)
    | cases h

lemma convert_single_cases (cfg : Option String) (uuid : Nat → String) (env : Env)
    (req : Request) (st : ServerState) :
    (∃ r, req.is_first_file = true ∧
        first_file_gate cfg env.licenseResp req.license_key = Except.error r ∧
        convert_single cfg uuid env req st = (r.1, st, r.2)) ∨
    (∃ kd, req.is_first_file = true ∧
        first_file_gate cfg env.licenseResp req.license_key = Except.ok kd ∧
        convert_single cfg uuid env req st =
          ((handle_upload uuid env.settleOk req (addKey st req.session_id kd.id)).1,
           (handle_upload uuid env.settleOk req (addKey st req.session_id kd.id)).2.1,
           Event.licenseCheck :: Event.createSessionDir req.session_id ::
             Event.writeKeyId req.session_id kd.id ::
             (handle_upload uuid env.settleOk req (addKey st req.session_id kd.id)).2.2)) ∨
    (req.is_first_file = false ∧
        convert_single cfg uuid env req st = handle_upload uuid env.settleOk req st) := by
  by_cases hf : req.is_first_file = true
  · cases hg : first_file_gate cfg env.licenseResp req.license_key with
    | error r => exact Or.inl ⟨r, hf, rfl, by simp [convert_single, hf, hg]⟩
    | ok kd => exact Or.inr (Or.inl ⟨kd, hf, rfl, by simp [convert_single, hf, hg]⟩)
  · have hf2 : req.is_first_file = false := by simpa using hf
    exact Or.inr (Or.inr ⟨hf2, by simp [convert_single, hf2]⟩)

lemma convert_settle_mem {cfg : Option String} {uuid : Nat → String} {env : Env}
    {req : Request} {st : ServerState} {sid k : String} {ok : Bool}
    (h : Event.settle sid k ok ∈ (convert_single cfg uuid env req st).2.2) :
    req.is_last_file = true ∧ sid = req.session_id ∧
    (∃ u, (convert_single cfg uuid env req st).1 = Response.okDownload u) ∧
    (∃ l1 es l2, (convert_single cfg uuid env req st).2.2 =
        l1 ++ Event.writeArchive req.session_id es :: l2 ∧
      Event.settle sid k ok ∈ l2) := by
  rcases convert_single_cases cfg uuid env req st with
    ⟨r, hf, hg, heq⟩ | ⟨kd, hf, hg, heq⟩ | ⟨hf, heq⟩
  · rw [heq] at h
    obtain ⟨-, hall⟩ := first_file_gate_error_cases hg
    cases hall _ h
  · rw [heq] at h
    simp only [List.mem_cons] at h
    rcases h with h | h | h | h
    · cases h
    · cases h
    · cases h
    · obtain ⟨hlast, hsid, hok, ⟨u, hresp⟩, ⟨l1, es, l2, hsplit, hmem⟩⟩ := handle_settle_mem h
      refine ⟨hlast, hsid, ⟨u, by rw [heq]; exact hresp⟩, ?_⟩
      refine ⟨Event.licenseCheck :: Event.createSessionDir req.session_id ::
        Event.writeKeyId req.session_id kd.id :: l1, es, l2, ?_, hmem⟩
      have e2 : (convert_single cfg uuid env req st).2.2 =
          Event.licenseCheck :: Event.createSessionDir req.session_id ::
            Event.writeKeyId req.session_id kd.id ::
            (handle_upload uuid env.settleOk req (addKey st req.session_id kd.id)).2.2 := by
        rw [heq]
      rw [e2, hsplit]
      simp
  · rw [heq] at h
    obtain ⟨hlast, hsid, hok, ⟨u, hresp⟩, ⟨l1, es, l2, hsplit, hmem⟩⟩ := handle_settle_mem h
    exact ⟨hlast, hsid, ⟨u, by rw [heq]; exact hresp⟩,
      ⟨l1, es, l2, by rw [heq]; exact hsplit, hmem⟩⟩

lemma convert_settle_count (cfg : Option String) (uuid : Nat → String) (env : Env)
    (req : Request) (st : ServerState) (sid : String) :
    ((convert_single cfg uuid env req st).2.2.countP (isSettleFor sid)) ≤ 1 := by
  rcases convert_single_cases cfg uuid env req st with
    ⟨r, hf, hg, heq⟩ | ⟨kd, hf, hg, heq⟩ | ⟨hf, heq⟩
  · rw [heq]
    obtain ⟨-, hall⟩ := first_file_gate_error_cases hg
    have h0 : r.2.countP (isSettleFor sid) = 0 := by
      rw [List.countP_eq_zero]
      intro e he
      rw [hall e he]
      simp [isSettleFor]
    simpa [h0]
  · rw [heq]
    simpa [List.countP_cons, isSettleFor] using handle_settle_count uuid env.settleOk req
      (addKey st req.session_id kd.id) sid
  · rw [heq]
    exact handle_settle_count uuid env.settleOk req st sid

lemma hasKeyN_addKey (st : ServerState) (s2 kid : String) (sid : String) :
    hasKeyN (addKey st s2 kid) sid ≤ 1 ∧
    (sid ≠ s2 → hasKeyN (addKey st s2 kid) sid = hasKeyN st sid) := by
  constructor
  · by_cases hx : sid = s2
    · subst hx; simp [hasKeyN, addKey]
    · simp only [hasKeyN, addKey]
      simp only [beq_iff_eq, if_neg hx]
      cases st.sessions sid with
      | none => simp
      | some s => simp only []; split <;> simp
  · intro hx
    simp only [hasKeyN, addKey]
    simp only [beq_iff_eq, if_neg hx]

lemma convert_settle_bound (cfg : Option String) (uuid : Nat → String) (env : Env)
    (req : Request) (st : ServerState) (sid : String) :
    ((convert_single cfg uuid env req st).2.2.countP (isSettleFor sid)) +
      hasKeyN (convert_single cfg uuid env req st).2.1 sid ≤
    hasKeyN st sid + (if isFirstFor sid (env, req) then 1 else 0) := by
  rcases convert_single_cases cfg uuid env req st with
    ⟨r, hf, hg, heq⟩ | ⟨kd, hf, hg, heq⟩ | ⟨hf, heq⟩
  · have e1 : (convert_single cfg uuid env req st).2.1 = st := by rw [heq]
    have e2 : (convert_single cfg uuid env req st).2.2 = r.2 := by rw [heq]
    rw [e1, e2]
    obtain ⟨-, hall⟩ := first_file_gate_error_cases hg
    have h0 : r.2.countP (isSettleFor sid) = 0 := by
      rw [List.countP_eq_zero]
      intro e he
      rw [hall e he]
      simp [isSettleFor]
    rw [h0]
    omega
  · have e1 : (convert_single cfg uuid env req st).2.1 =
        (handle_upload uuid env.settleOk req (addKey st req.session_id kd.id)).2.1 := by
      rw [heq]
    have e2 : (convert_single cfg uuid env req st).2.2 =
        Event.licenseCheck :: Event.createSessionDir req.session_id ::
          Event.writeKeyId req.session_id kd.id ::
          (handle_upload uuid env.settleOk req (addKey st req.session_id kd.id)).2.2 := by
      rw [heq]
    rw [e1, e2]
    have hcnt : (Event.licenseCheck :: Event.createSessionDir req.session_id ::
        Event.writeKeyId req.session_id kd.id ::
        (handle_upload uuid env.settleOk req (addKey st req.session_id kd.id)).2.2).countP
          (isSettleFor sid) =
        ((handle_upload uuid env.settleOk req (addKey st req.session_id kd.id)).2.2).countP
          (isSettleFor sid) := by
      simp [List.countP_cons, isSettleFor]
    rw [hcnt]
    have hb := handle_settle_bound uuid env.settleOk req (addKey st req.session_id kd.id) sid
    by_cases hx : sid = req.session_id
    · have hff : (if isFirstFor sid (env, req) then 1 else 0) = 1 := by
        simp [isFirstFor, hf, hx]
      rw [hff]
      have h1 := (hasKeyN_addKey st req.session_id kd.id sid).1
      omega
    · have h2 := (hasKeyN_addKey st req.session_id kd.id sid).2 hx
      rw [h2] at hb
      omega
  · have e1 : (convert_single cfg uuid env req st).2.1 =
        (handle_upload uuid env.settleOk req st).2.1 := by rw [heq]
    have e2 : (convert_single cfg uuid env req st).2.2 =
        (handle_upload uuid env.settleOk req st).2.2 := by rw [heq]
    rw [e1, e2]
    have hb := handle_settle_bound uuid env.settleOk req st sid
    omega

lemma foldl_settle_bound (cfg : Option String) (uuid : Nat → String) (sid : String) :
    ∀ (steps : List (Env × Request)) (st : ServerState) (acc : List Event),
      ((List.foldl (runStep cfg uuid) (st, acc) steps).2.countP (isSettleFor sid)) ≤
        acc.countP (isSettleFor sid) + hasKeyN st sid + steps.countP (isFirstFor sid) := by
  intro steps
  induction steps with
  | nil => intro st acc; simp
  | cons er t ih =>
      obtain ⟨env, req⟩ := er
      intro st acc
      rw [List.foldl_cons]
      have hrs : runStep cfg uuid (st, acc) (env, req) =
          ((convert_single cfg uuid env req st).2.1,
           acc ++ (convert_single cfg uuid env req st).2.2) := rfl
      rw [hrs]
      have hstep := convert_settle_bound cfg uuid env req st sid
      have ihx := ih (convert_single cfg uuid env req st).2.1
        (acc ++ (convert_single cfg uuid env req st).2.2)
      rw [List.countP_append] at ihx
      rw [List.countP_cons]
      by_cases hff : isFirstFor sid (env, req) = true
      · rw [hff] at hstep ⊢
        simp only [if_pos] at hstep ⊢
        omega
      · have hff2 : isFirstFor sid (env, req) = false := by simpa using hff
        rw [hff2] at hstep ⊢
        simp only [Bool.false_eq_true, if_false] at hstep ⊢
        omega

/-- C1: settlement is only performed in a last-file request, only when the
request succeeds with a download, only after the output archive was written
in that same request, at most once per request, and across any request
sequence from a fresh server at most once per first-file request opening the
session. A failed conversion never reaches settlement. -/
theorem c1_settlement :
    (∀ (cfg : Option String) (uuid : Nat → String) (env : Env) (req : Request)
        (st : ServerState) (sid k : String) (ok : Bool),
        Event.settle sid k ok ∈ (convert_single cfg uuid env req st).2.2 →
          req.is_last_file = true ∧ sid = req.session_id ∧
          (∃ u, (convert_single cfg uuid env req st).1 = Response.okDownload u) ∧
          (∃ l1 es l2, (convert_single cfg uuid env req st).2.2 =
              l1 ++ Event.writeArchive req.session_id es :: l2 ∧
            Event.settle sid k ok ∈ l2)) ∧
    (∀ (cfg : Option String) (uuid : Nat → String) (env : Env) (req : Request)
        (st : ServerState) (sid : String),
        ((convert_single cfg uuid env req st).2.2.countP (isSettleFor sid)) ≤ 1) ∧
    (∀ (cfg : Option String) (uuid : Nat → String) (steps : List (Env × Request))
        (sid : String),
        ((run cfg uuid steps).2.countP (isSettleFor sid)) ≤
          steps.countP (isFirstFor sid)) := by
  refine ⟨?_, ?_, ?_⟩
  · intro cfg uuid env req st sid k ok h
    exact convert_settle_mem h
  · intro cfg uuid env req st sid
    exact convert_settle_count cfg uuid env req st sid
  · intro cfg uuid steps sid
    have h := foldl_settle_bound cfg uuid sid steps ServerState.init []
    simpa [run, hasKeyN, ServerState.init] using h

/-- Witness for c1_settlement: a concrete successful single-file session in
which the settle event does occur. -/
theorem c1_settlement_witness :
    (⟨some "K", "s", true, true,
        some (Archive.ok [⟨"brush.png", some ⟨2048, 2048, "RGB"⟩⟩])⟩ : Request).is_last_file =
      true ∧
    (∃ u, (convert_single (some "A") (fun _ => "u0")
        ⟨ServiceResp.found ⟨"k7", "active", none, 0⟩, true⟩
        ⟨some "K", "s", true, true, some (Archive.ok [⟨"brush.png", some ⟨2048, 2048, "RGB"⟩⟩])⟩
        ServerState.init).1 = Response.okDownload u) :=
  let h := c1_settlement.1 (some "A") (fun _ => "u0")
    ⟨ServiceResp.found ⟨"k7", "active", none, 0⟩, true⟩
    ⟨some "K", "s", true, true, some (Archive.ok [⟨"brush.png", some ⟨2048, 2048, "RGB"⟩⟩])⟩
    ServerState.init "s" "k7" true (by decide)
  ⟨h.1, h.2.2.1⟩

lemma handle_upload_settleOk (uuid : Nat → String) (b1 b2 : Bool) (req : Request)
    (st : ServerState) :
    (handle_upload uuid b1 req st).1 = (handle_upload uuid b2 req st).1 ∧
    (handle_upload uuid b1 req st).2.1 = (handle_upload uuid b2 req st).2.1 := by
  obtain ⟨lk, sid, ff, lf, bf⟩ := req
  cases bf with
  | none => exact ⟨rfl, rfl⟩
  | some a =>
    cases a with
    | badZip => exact ⟨rfl, rfl⟩
    | ok entries =>
      cases hs : st.sessions sid with
      | none =>
          constructor <;> simp [handle_upload, process_brushset, hs]
      | some sess =>
        cases lf with
        | false => constructor <;> simp [handle_upload, process_brushset, hs]
        | true =>
          cases hk : sess.keyId with
          | some k => constructor <;> simp [handle_upload, process_brushset, hs, hk]
          | none => constructor <;> simp [handle_upload, process_brushset, hs, hk]

/-- C8: the outcome of the usage-increment call never influences the
response or the resulting server state; when settlement was attempted and
the external call failed, the response is still the download message, and
the archive was written. The failure is only recorded in the log. -/
theorem c8_settlement_soft_fail (cfg : Option String) (uuid : Nat → String)
    (lresp : ServiceResp) (req : Request) (st : ServerState) :
    ((convert_single cfg uuid ⟨lresp, false⟩ req st).1 =
      (convert_single cfg uuid ⟨lresp, true⟩ req st).1) ∧
    ((convert_single cfg uuid ⟨lresp, false⟩ req st).2.1 =
      (convert_single cfg uuid ⟨lresp, true⟩ req st).2.1) ∧
    (∀ sid k, Event.settle sid k false ∈ (convert_single cfg uuid ⟨lresp, false⟩ req st).2.2 →
        ∃ u, (convert_single cfg uuid ⟨lresp, false⟩ req st).1 = Response.okDownload u ∧
          ∃ es l1 l2, (convert_single cfg uuid ⟨lresp, false⟩ req st).2.2 =
            l1 ++ Event.writeArchive req.session_id es :: l2) := by
  have key : ∀ b : Bool,
      (convert_single cfg uuid ⟨lresp, b⟩ req st).1 =
        (convert_single cfg uuid ⟨lresp, true⟩ req st).1 ∧
      (convert_single cfg uuid ⟨lresp, b⟩ req st).2.1 =
        (convert_single cfg uuid ⟨lresp, true⟩ req st).2.1 := by
    intro b
    by_cases hf : req.is_first_file = true
    · simp only [convert_single, hf, if_true]
      cases hg : first_file_gate cfg lresp req.license_key with
      | error r => simp [hg]
      | ok kd =>
          simp only [hg]
          exact handle_upload_settleOk uuid b true req (addKey st req.session_id kd.id)
    · have hf2 : req.is_first_file = false := by simpa using hf
      simp only [convert_single, hf2, Bool.false_eq_true, if_false]
      exact handle_upload_settleOk uuid b true req st
  refine ⟨(key false).1, (key false).2, ?_⟩
  intro sid k h
  obtain ⟨hl, hsid, ⟨u, hresp⟩, ⟨l1, es, l2, hsplit, -⟩⟩ := convert_settle_mem h
  exact ⟨u, hresp, es, l1, l2, hsplit⟩

/-- Witness for c8_settlement_soft_fail: a concrete last-file request whose
settlement call fails but which still returns the download. -/
theorem c8_settlement_soft_fail_witness :
    ∃ u, (convert_single (some "A") (fun _ => "u0")
        ⟨ServiceResp.found ⟨"k7", "active", none, 0⟩, false⟩
        ⟨some "K", "s", true, true, some (Archive.ok [⟨"brush.png", some ⟨2048, 2048, "RGB"⟩⟩])⟩
        ServerState.init).1 = Response.okDownload u ∧
      ∃ es l1 l2, (convert_single (some "A") (fun _ => "u0")
          ⟨ServiceResp.found ⟨"k7", "active", none, 0⟩, false⟩
          ⟨some "K", "s", true, true, some (Archive.ok [⟨"brush.png", some ⟨2048, 2048, "RGB"⟩⟩])⟩
          ServerState.init).2.2 =
        l1 ++ Event.writeArchive "s" es :: l2 :=
  (c8_settlement_soft_fail (some "A") (fun _ => "u0")
      (ServiceResp.found ⟨"k7", "active", none, 0⟩)
      ⟨some "K", "s", true, true, some (Archive.ok [⟨"brush.png", some ⟨2048, 2048, "RGB"⟩⟩])⟩
      ServerState.init).2.2 "s" "k7" (by decide)

/-- C7: when the first-file license gate fails, the request returns the gate
error untouched: the server state is unchanged (no session directory, no
saved upload, no extraction), and the only side effect is at most the
license-service call itself. -/
theorem c7_license_gate (cfg : Option String) (uuid : Nat → String) (env : Env)
    (req : Request) (st : ServerState) (r : Response × List Event)
    (hf : req.is_first_file = true)
    (hfail : first_file_gate cfg env.licenseResp req.license_key = Except.error r) :
    convert_single cfg uuid env req st = (r.1, st, r.2) ∧
    (∃ c m, r.1 = Response.clientError c m) ∧
    (∀ e ∈ r.2, e = Event.licenseCheck) := by
  obtain ⟨hc, hall⟩ := first_file_gate_error_cases hfail
  refine ⟨?_, hc, hall⟩
  simp [convert_single, hf, hfail]

/-- Witness for c7_license_gate: an inactive key on the first file. -/
theorem c7_license_gate_witness :
    convert_single (some "A") (fun _ => "u0")
        ⟨ServiceResp.found ⟨"k7", "inactive", none, 0⟩, true⟩
        ⟨some "K", "s", true, false, some (Archive.ok [])⟩ ServerState.init =
      ((Response.clientError 403 "This license key is inactive.", [Event.licenseCheck]).1,
        ServerState.init,
        (Response.clientError 403 "This license key is inactive.", [Event.licenseCheck]).2) ∧
    (∃ c m, (Response.clientError 403 "This license key is inactive.",
        ([Event.licenseCheck] : List Event)).1 = Response.clientError c m) ∧
    (∀ e ∈ (Response.clientError 403 "This license key is inactive.",
        ([Event.licenseCheck] : List Event)).2, e = Event.licenseCheck) :=
  c7_license_gate (some "A") (fun _ => "u0")
    ⟨ServiceResp.found ⟨"k7", "inactive", none, 0⟩, true⟩
    ⟨some "K", "s", true, false, some (Archive.ok [])⟩ ServerState.init
    (Response.clientError 403 "This license key is inactive.", [Event.licenseCheck]) rfl rfl

/-- C3 as amended: a unit with zero qualifying images does not fail; the
request succeeds (mid-session acknowledgement, or the download on a last
file), nothing is moved into the session, and the unit's scratch directory
is removed. There is no NoQualifyingImages error. -/
theorem c3_no_qualifying (cfg : Option String) (uuid : Nat → String) (env : Env)
    (req : Request) (st : ServerState) (sess : SessionState) (entries : List Entry)
    (hf : req.is_first_file = false)
    (hb : req.brush_file = some (Archive.ok entries))
    (hs : st.sessions req.session_id = some sess)
    (hq : entries.filter qualifies = []) :
    ((convert_single cfg uuid env req st).1 = Response.okAwait ∨
      ∃ u, (convert_single cfg uuid env req st).1 = Response.okDownload u) ∧
    Event.removeTempDir ∈ (convert_single cfg uuid env req st).2.2 ∧
    (∀ s2 n, Event.moveArtifact s2 n ∉ (convert_single cfg uuid env req st).2.2) := by
  have heq : convert_single cfg uuid env req st = handle_upload uuid env.settleOk req st := by
    simp [convert_single, hf]
  rw [heq]
  rcases handle_upload_shape uuid env.settleOk req st with ⟨hbn, h1⟩ | ⟨msg, hbz, h1⟩ |
    ⟨e3, resp, hbe, hsn, -, h1⟩ | ⟨e4, hbe, hsn, h1⟩ |
    ⟨sess2, entries2, hlast, hsess, hb2, h1⟩ | ⟨sess2, entries2, k2, hlast, hsess, hk, hb2, h1⟩ |
    ⟨sess2, entries2, hlast, hsess, hk, hb2, h1⟩
  · rw [hb] at hbn; cases hbn
  · rw [hb] at hbz; cases Option.some.inj hbz
  · rw [hs] at hsn; cases hsn
  · rw [hs] at hsn; cases hsn
  · rw [hb] at hb2
    obtain rfl := Archive.ok.inj (Option.some.inj hb2)
    rw [h1, hq]
    refine ⟨Or.inl rfl, ?_, ?_⟩
    · simp [storeImages]
    · intro s2 n
      simp [storeImages]
  · rw [hb] at hb2
    obtain rfl := Archive.ok.inj (Option.some.inj hb2)
    rw [h1, hq]
    refine ⟨Or.inr ⟨_, rfl⟩, ?_, ?_⟩
    · simp [storeImages]
    · intro s2 n
      simp [storeImages]
  · rw [hb] at hb2
    obtain rfl := Archive.ok.inj (Option.some.inj hb2)
    rw [h1, hq]
    refine ⟨Or.inr ⟨_, rfl⟩, ?_, ?_⟩
    · simp [storeImages]
    · intro s2 n
      simp [storeImages]

/-- Witness for c3_no_qualifying at a concrete archive of small images. -/
theorem c3_no_qualifying_witness :
    ((convert_single (some "A") (fun _ => "u0") ⟨ServiceResp.empty, true⟩
        ⟨none, "s", false, false, some (Archive.ok [⟨"small.png", some ⟨500, 500, "RGB"⟩⟩])⟩
        ⟨fun x => if x == "s" then some ⟨some "k7", []⟩ else none, 0⟩).1 = Response.okAwait ∨
      ∃ u, (convert_single (some "A") (fun _ => "u0") ⟨ServiceResp.empty, true⟩
        ⟨none, "s", false, false, some (Archive.ok [⟨"small.png", some ⟨500, 500, "RGB"⟩⟩])⟩
        ⟨fun x => if x == "s" then some ⟨some "k7", []⟩ else none, 0⟩).1 =
          Response.okDownload u) ∧
    Event.removeTempDir ∈ (convert_single (some "A") (fun _ => "u0") ⟨ServiceResp.empty, true⟩
        ⟨none, "s", false, false, some (Archive.ok [⟨"small.png", some ⟨500, 500, "RGB"⟩⟩])⟩
        ⟨fun x => if x == "s" then some ⟨some "k7", []⟩ else none, 0⟩).2.2 ∧
    (∀ s2 n, Event.moveArtifact s2 n ∉
        (convert_single (some "A") (fun _ => "u0") ⟨ServiceResp.empty, true⟩
          ⟨none, "s", false, false, some (Archive.ok [⟨"small.png", some ⟨500, 500, "RGB"⟩⟩])⟩
          ⟨fun x => if x == "s" then some ⟨some "k7", []⟩ else none, 0⟩).2.2) :=
  c3_no_qualifying (some "A") (fun _ => "u0") ⟨ServiceResp.empty, true⟩
    ⟨none, "s", false, false, some (Archive.ok [⟨"small.png", some ⟨500, 500, "RGB"⟩⟩])⟩
    ⟨fun x => if x == "s" then some ⟨some "k7", []⟩ else none, 0⟩
    ⟨some "k7", []⟩ [⟨"small.png", some ⟨500, 500, "RGB"⟩⟩] rfl rfl (by simp) (by decide)

/-- C3 counterexample: a last-file unit whose archive has zero qualifying
images succeeds with the download message and an empty output archive, and
even settles the license; it does not fail with a NoQualifyingImages error. -/
theorem c3_empty_counterexample :
    (convert_single (some "A") (fun _ => "u0") ⟨ServiceResp.empty, true⟩
        ⟨none, "s", false, true, some (Archive.ok [⟨"small.png", some ⟨500, 500, "RGB"⟩⟩])⟩
        ⟨fun x => if x == "s" then some ⟨some "k7", []⟩ else none, 0⟩).1 =
      Response.okDownload "/download-zip/converted_s.zip" ∧
    Event.writeArchive "s" [] ∈ (convert_single (some "A") (fun _ => "u0")
        ⟨ServiceResp.empty, true⟩
        ⟨none, "s", false, true, some (Archive.ok [⟨"small.png", some ⟨500, 500, "RGB"⟩⟩])⟩
        ⟨fun x => if x == "s" then some ⟨some "k7", []⟩ else none, 0⟩).2.2 ∧
    Event.settle "s" "k7" true ∈ (convert_single (some "A") (fun _ => "u0")
        ⟨ServiceResp.empty, true⟩
        ⟨none, "s", false, true, some (Archive.ok [⟨"small.png", some ⟨500, 500, "RGB"⟩⟩])⟩
        ⟨fun x => if x == "s" then some ⟨some "k7", []⟩ else none, 0⟩).2.2 :=
  ⟨by decide, by decide, by decide⟩

/-- C4 as amended: the qualifier performs no normalization at all; every
qualifying image is stored with its decoded content unchanged, so a
single-channel image stays single-channel and is never converted to a
4-channel color-plus-alpha form. -/
theorem c4_no_normalization (cfg : Option String) (uuid : Nat → String) (env : Env)
    (req : Request) (st : ServerState) (sess : SessionState) (entries : List Entry)
    (hf : req.is_first_file = false)
    (hl : req.is_last_file = false)
    (hb : req.brush_file = some (Archive.ok entries))
    (hs : st.sessions req.session_id = some sess) :
    ∃ sess2, (convert_single cfg uuid env req st).2.1.sessions req.session_id = some sess2 ∧
      sess2.artifacts.map Prod.snd =
        sess.artifacts.map Prod.snd ++ (entries.filter qualifies).map Entry.image := by
  have heq : convert_single cfg uuid env req st = handle_upload uuid env.settleOk req st := by
    simp [convert_single, hf]
  rw [heq]
  rcases handle_upload_shape uuid env.settleOk req st with ⟨hbn, h1⟩ | ⟨msg, hbz, h1⟩ |
    ⟨e3, resp, hbe, hsn, -, h1⟩ | ⟨e4, hbe, hsn, h1⟩ |
    ⟨sess2, entries2, hlast, hsess, hb2, h1⟩ | ⟨sess2, entries2, k2, hlast, hsess, hk, hb2, h1⟩ |
    ⟨sess2, entries2, hlast, hsess, hk, hb2, h1⟩
  · rw [hb] at hbn; cases hbn
  · rw [hb] at hbz; cases Option.some.inj hbz
  · rw [hs] at hsn; cases hsn
  · rw [hs] at hsn; cases hsn
  · rw [hb] at hb2
    obtain rfl := Archive.ok.inj (Option.some.inj hb2)
    rw [hs] at hsess
    obtain rfl := Option.some.inj hsess
    rw [h1]
    refine ⟨⟨sess.keyId, sess.artifacts ++
        (storeImages uuid req.session_id st.counter (entries.filter qualifies)).1⟩, ?_, ?_⟩
    · simp
    · simp [List.map_append, storeImages_snd]
  · rw [hl] at hlast; cases hlast
  · rw [hl] at hlast; cases hlast

/-- Witness for c4_no_normalization: one grayscale qualifying image. -/
theorem c4_no_normalization_witness :
    ∃ sess2, (convert_single (some "A") (fun _ => "u0") ⟨ServiceResp.empty, true⟩
        ⟨none, "s", false, false, some (Archive.ok [⟨"gray.png", some ⟨2048, 2048, "L"⟩⟩])⟩
        ⟨fun x => if x == "s" then some ⟨some "k7", []⟩ else none, 0⟩).2.1.sessions "s" =
      some sess2 ∧
      sess2.artifacts.map Prod.snd =
        (⟨some "k7", []⟩ : SessionState).artifacts.map Prod.snd ++
          ([⟨"gray.png", some ⟨2048, 2048, "L"⟩⟩].filter qualifies).map Entry.image :=
  c4_no_normalization (some "A") (fun _ => "u0") ⟨ServiceResp.empty, true⟩
    ⟨none, "s", false, false, some (Archive.ok [⟨"gray.png", some ⟨2048, 2048, "L"⟩⟩])⟩
    ⟨fun x => if x == "s" then some ⟨some "k7", []⟩ else none, 0⟩
    ⟨some "k7", []⟩ [⟨"gray.png", some ⟨2048, 2048, "L"⟩⟩] rfl rfl rfl (by simp)

/-- C4 counterexample: a 2048x2048 single-channel (mode L) image qualifies
and is stored still in mode L with its original content; it is not converted
to a 4-channel RGBA image. -/
theorem c4_grayscale_counterexample :
    qualifies ⟨"gray.png", some ⟨2048, 2048, "L"⟩⟩ = true ∧
    (convert_single (some "A") (fun _ => "u0") ⟨ServiceResp.empty, true⟩
        ⟨none, "s", false, false, some (Archive.ok [⟨"gray.png", some ⟨2048, 2048, "L"⟩⟩])⟩
        ⟨fun x => if x == "s" then some ⟨some "k7", []⟩ else none, 0⟩).2.1.sessions "s" =
      some ⟨some "k7", [("u0.png", some ⟨2048, 2048, "L"⟩)]⟩ ∧
    "L" ≠ "RGBA" :=
  ⟨by decide, by decide, by decide⟩

lemma convert_single_not_first (cfg : Option String) (uuid : Nat → String) (env : Env)
    (req : Request) (st : ServerState) (hf : req.is_first_file = false) :
    convert_single cfg uuid env req st = handle_upload uuid env.settleOk req st := by
  simp [convert_single, hf]

lemma handle_upload_mid_eq (uuid : Nat → String) (sOk : Bool) (lk : Option String)
    (ff : Bool) (sid kid : String) (st : ServerState)
    (arts : List (String × Option ImgInfo)) (u : List Entry)
    (hs : st.sessions sid = some ⟨some kid, arts⟩) :
    handle_upload uuid sOk ⟨lk, sid, ff, false, some (.ok u)⟩ st =
      (Response.okAwait,
       ⟨fun x => if x == sid then
            some ⟨some kid, arts ++ (storeImages uuid sid st.counter (u.filter qualifies)).1⟩
          else st.sessions x,
        (storeImages uuid sid st.counter (u.filter qualifies)).2.2⟩,
       Event.saveUpload :: Event.createTempDir :: Event.extractAll ::
         (storeImages uuid sid st.counter (u.filter qualifies)).2.1 ++
           [Event.removeTempDir]) := by
  simp [handle_upload, process_brushset, hs]

lemma handle_upload_last_mem (uuid : Nat → String) (sOk : Bool) (lk : Option String)
    (ff : Bool) (sid kid : String) (st : ServerState)
    (arts : List (String × Option ImgInfo)) (u : List Entry)
    (hs : st.sessions sid = some ⟨some kid, arts⟩) :
    Event.writeArchive sid
        (package_entries (listSessionDir ⟨some kid,
          arts ++ (storeImages uuid sid st.counter (u.filter qualifies)).1⟩))
      ∈ (handle_upload uuid sOk ⟨lk, sid, ff, true, some (.ok u)⟩ st).2.2 := by
  simp [handle_upload, process_brushset, hs]

lemma laterSteps_writeArchive (cfg : Option String) (uuid : Nat → String) (env : Env)
    (sid kid : String) :
    ∀ (rest : List (List Entry)) (st : ServerState)
      (arts : List (String × Option ImgInfo)) (acc : List Event),
      rest ≠ [] →
      st.sessions sid = some ⟨some kid, arts⟩ →
      Event.writeArchive sid
          (package_entries ("key_id.txt" ::
            (arts.map Prod.fst ++ namesFrom uuid st.counter (totalQualifying rest))))
        ∈ (List.foldl (runStep cfg uuid) (st, acc) (laterSteps env sid rest)).2 := by
  intro rest
  induction rest with
  | nil => intro st arts acc hne hs; cases hne rfl
  | cons u t ih =>
      intro st arts acc hne hs
      cases t with
      | nil =>
          rw [show laterSteps env sid [u] = [(env, ⟨none, sid, false, true, some (.ok u)⟩)]
            from rfl, List.foldl_cons, List.foldl_nil]
          have hconv : convert_single cfg uuid env ⟨none, sid, false, true, some (.ok u)⟩ st =
              handle_upload uuid env.settleOk ⟨none, sid, false, true, some (.ok u)⟩ st :=
            convert_single_not_first cfg uuid env _ st rfl
          have hmem := handle_upload_last_mem uuid env.settleOk none false sid kid st arts u hs
          have harg : listSessionDir ⟨some kid,
              arts ++ (storeImages uuid sid st.counter (u.filter qualifies)).1⟩ =
              "key_id.txt" :: (arts.map Prod.fst ++
                namesFrom uuid st.counter (totalQualifying [u])) := by
            simp [listSessionDir, List.map_append, storeImages_fst, totalQualifying]
          rw [harg] at hmem
          have hrs : runStep cfg uuid (st, acc) (env, ⟨none, sid, false, true, some (.ok u)⟩) =
              ((convert_single cfg uuid env ⟨none, sid, false, true, some (.ok u)⟩ st).2.1,
               acc ++ (convert_single cfg uuid env ⟨none, sid, false, true, some (.ok u)⟩ st).2.2) :=
            rfl
          rw [hrs]
          apply List.mem_append_right
          rw [hconv]
          exact hmem
      | cons u2 t2 =>
          rw [show laterSteps env sid (u :: u2 :: t2) =
              (env, ⟨none, sid, false, false, some (.ok u)⟩) :: laterSteps env sid (u2 :: t2)
            from rfl, List.foldl_cons]
          have hconv : convert_single cfg uuid env ⟨none, sid, false, false, some (.ok u)⟩ st =
              handle_upload uuid env.settleOk ⟨none, sid, false, false, some (.ok u)⟩ st :=
            convert_single_not_first cfg uuid env _ st rfl
          have hmid := handle_upload_mid_eq uuid env.settleOk none false sid kid st arts u hs
          have hrs : runStep cfg uuid (st, acc) (env, ⟨none, sid, false, false, some (.ok u)⟩) =
              ((⟨fun x => if x == sid then
                  some ⟨some kid, arts ++ (storeImages uuid sid st.counter (u.filter qualifies)).1⟩
                else st.sessions x,
                (storeImages uuid sid st.counter (u.filter qualifies)).2.2⟩ : ServerState),
               acc ++ (Event.saveUpload :: Event.createTempDir :: Event.extractAll ::
                 (storeImages uuid sid st.counter (u.filter qualifies)).2.1 ++
                   [Event.removeTempDir])) := by
            rw [runStep, hconv, hmid]
          rw [hrs]
          have hs2 : (⟨fun x => if x == sid then
              some ⟨some kid, arts ++ (storeImages uuid sid st.counter (u.filter qualifies)).1⟩
            else st.sessions x,
            (storeImages uuid sid st.counter (u.filter qualifies)).2.2⟩ : ServerState).sessions sid =
              some ⟨some kid, arts ++ (storeImages uuid sid st.counter (u.filter qualifies)).1⟩ := by
            simp
          have hihres : Event.writeArchive sid
              (package_entries ("key_id.txt" ::
                ((arts ++ (storeImages uuid sid st.counter (u.filter qualifies)).1).map Prod.fst ++
                  namesFrom uuid ((storeImages uuid sid st.counter (u.filter qualifies)).2.2)
                    (totalQualifying (u2 :: t2)))))
            ∈ (List.foldl (runStep cfg uuid)
                ((⟨fun x => if x == sid then
                    some ⟨some kid, arts ++ (storeImages uuid sid st.counter (u.filter qualifies)).1⟩
                  else st.sessions x,
                  (storeImages uuid sid st.counter (u.filter qualifies)).2.2⟩ : ServerState),
                 acc ++ (Event.saveUpload :: Event.createTempDir :: Event.extractAll ::
                   (storeImages uuid sid st.counter (u.filter qualifies)).2.1 ++
                     [Event.removeTempDir]))
                (laterSteps env sid (u2 :: t2))).2 :=
            ih _ (arts ++ (storeImages uuid sid st.counter (u.filter qualifies)).1) _
              (by simp) hs2
          have halign : ("key_id.txt" ::
              ((arts ++ (storeImages uuid sid st.counter (u.filter qualifies)).1).map Prod.fst ++
                namesFrom uuid ((storeImages uuid sid st.counter (u.filter qualifies)).2.2)
                  (totalQualifying (u2 :: t2))) : List String) =
              "key_id.txt" :: (arts.map Prod.fst ++
                namesFrom uuid st.counter (totalQualifying (u :: u2 :: t2))) := by
            rw [storeImages_counter]
            rw [show totalQualifying (u :: u2 :: t2) =
                (u.filter qualifies).length + totalQualifying (u2 :: t2) from by
              simp [totalQualifying]]
            rw [namesFrom_append]
            simp [List.map_append, storeImages_fst, List.append_assoc]
          rw [halign] at hihres
          exact hihres

lemma package_names (uuid : Nat → String) (T : Nat) :
    package_entries ("key_id.txt" :: namesFrom uuid 0 T) = namesFrom uuid 0 T := by
  have h1 : strEndsWith "key_id.txt" ".png" = false := by decide
  simp only [package_entries, List.filter_cons, h1, Bool.false_eq_true, if_false]
  exact List.filter_eq_self.mpr (namesFrom_png uuid T 0)

lemma convert_single_first (cfg : Option String) (uuid : Nat → String) (env : Env)
    (st : ServerState) (kd : KeyData) (key sid : String) (lf : Bool) (u : List Entry)
    (hgate : first_file_gate cfg env.licenseResp (some key) = Except.ok kd) :
    convert_single cfg uuid env ⟨some key, sid, true, lf, some (.ok u)⟩ st =
      ((handle_upload uuid env.settleOk ⟨some key, sid, true, lf, some (.ok u)⟩
          (addKey st sid kd.id)).1,
       (handle_upload uuid env.settleOk ⟨some key, sid, true, lf, some (.ok u)⟩
          (addKey st sid kd.id)).2.1,
       Event.licenseCheck :: Event.createSessionDir sid :: Event.writeKeyId sid kd.id ::
         (handle_upload uuid env.settleOk ⟨some key, sid, true, lf, some (.ok u)⟩
            (addKey st sid kd.id)).2.2) := by
  simp [convert_single, hgate]

lemma addKey_init_sessions (sid kid : String) :
    (addKey ServerState.init sid kid).sessions sid = some ⟨some kid, []⟩ := by
  simp [addKey, ServerState.init]

/-- C9: a session of N sequential units with k1, ..., kN qualifying images
accumulates without any collision: provided the uuid4 stream has no
collision (which the code relies on), the final archive holds exactly
k1 + ... + kN entries with pairwise distinct names. -/
theorem c9_accumulation (cfg : Option String) (uuid : Nat → String) (env : Env)
    (kd : KeyData) (sid key : String) (units : List (List Entry))
    (hgate : first_file_gate cfg env.licenseResp (some key) = Except.ok kd)
    (hne : units ≠ [])
    (hinj : ∀ i, i < totalQualifying units → ∀ j, j < totalQualifying units →
        uuid i = uuid j → i = j) :
    ∃ entries,
      Event.writeArchive sid entries ∈ (run cfg uuid (sessionSteps env sid key units)).2 ∧
      entries.length = totalQualifying units ∧ entries.Nodup := by
  cases units with
  | nil => cases hne rfl
  | cons u rest =>
      refine ⟨namesFrom uuid 0 (totalQualifying (u :: rest)), ?_,
        namesFrom_length uuid _ 0, namesFrom_nodup uuid _ (fun i j hi hj => hinj i hi j hj)⟩
      rw [← package_names uuid (totalQualifying (u :: rest))]
      cases rest with
      | nil =>
          rw [show sessionSteps env sid key [u] =
              [(env, ⟨some key, sid, true, true, some (.ok u)⟩)] from rfl]
          have hgatec := convert_single_first cfg uuid env ServerState.init kd key sid true u hgate
          have hmem := handle_upload_last_mem uuid env.settleOk (some key) true sid kd.id
            (addKey ServerState.init sid kd.id) [] u (addKey_init_sessions sid kd.id)
          have harg : listSessionDir ⟨some kd.id,
              [] ++ (storeImages uuid sid (addKey ServerState.init sid kd.id).counter
                (u.filter qualifies)).1⟩ =
              "key_id.txt" :: namesFrom uuid 0 (totalQualifying [u]) := by
            simp [listSessionDir, storeImages_fst, totalQualifying, addKey, ServerState.init]
          rw [harg] at hmem
          show Event.writeArchive sid
              (package_entries ("key_id.txt" :: namesFrom uuid 0 (totalQualifying [u]))) ∈
            ([] ++ (convert_single cfg uuid env ⟨some key, sid, true, true, some (.ok u)⟩
              ServerState.init).2.2)
          refine List.mem_append_right _ ?_
          rw [hgatec]
          exact List.mem_cons_of_mem _ (List.mem_cons_of_mem _ (List.mem_cons_of_mem _ hmem))
      | cons u2 t2 =>
          rw [show sessionSteps env sid key (u :: u2 :: t2) =
              (env, ⟨some key, sid, true, false, some (.ok u)⟩) ::
                laterSteps env sid (u2 :: t2) from rfl]
          have hgatec := convert_single_first cfg uuid env ServerState.init kd key sid false u hgate
          have hmid := handle_upload_mid_eq uuid env.settleOk (some key) true sid kd.id
            (addKey ServerState.init sid kd.id) [] u (addKey_init_sessions sid kd.id)
          have hrs : runStep cfg uuid (ServerState.init, [])
              (env, ⟨some key, sid, true, false, some (.ok u)⟩) =
              ((⟨fun x => if x == sid then
                  some ⟨some kd.id, [] ++ (storeImages uuid sid
                    (addKey ServerState.init sid kd.id).counter (u.filter qualifies)).1⟩
                else (addKey ServerState.init sid kd.id).sessions x,
                (storeImages uuid sid (addKey ServerState.init sid kd.id).counter
                  (u.filter qualifies)).2.2⟩ : ServerState),
               [] ++ (Event.licenseCheck :: Event.createSessionDir sid ::
                 Event.writeKeyId sid kd.id ::
                 (Event.saveUpload :: Event.createTempDir :: Event.extractAll ::
                   (storeImages uuid sid (addKey ServerState.init sid kd.id).counter
                     (u.filter qualifies)).2.1 ++ [Event.removeTempDir]))) := by
            rw [runStep, hgatec, hmid]
          have hs2 : (⟨fun x => if x == sid then
              some ⟨some kd.id, [] ++ (storeImages uuid sid
                (addKey ServerState.init sid kd.id).counter (u.filter qualifies)).1⟩
            else (addKey ServerState.init sid kd.id).sessions x,
            (storeImages uuid sid (addKey ServerState.init sid kd.id).counter
              (u.filter qualifies)).2.2⟩ : ServerState).sessions sid =
              some ⟨some kd.id, [] ++ (storeImages uuid sid
                (addKey ServerState.init sid kd.id).counter (u.filter qualifies)).1⟩ := by
            simp
          have hihres : Event.writeArchive sid
              (package_entries ("key_id.txt" ::
                (([] ++ (storeImages uuid sid (addKey ServerState.init sid kd.id).counter
                    (u.filter qualifies)).1).map Prod.fst ++
                  namesFrom uuid ((storeImages uuid sid
                    (addKey ServerState.init sid kd.id).counter (u.filter qualifies)).2.2)
                    (totalQualifying (u2 :: t2)))))
            ∈ (List.foldl (runStep cfg uuid)
                ((⟨fun x => if x == sid then
                    some ⟨some kd.id, [] ++ (storeImages uuid sid
                      (addKey ServerState.init sid kd.id).counter (u.filter qualifies)).1⟩
                  else (addKey ServerState.init sid kd.id).sessions x,
                  (storeImages uuid sid (addKey ServerState.init sid kd.id).counter
                    (u.filter qualifies)).2.2⟩ : ServerState),
                 [] ++ (Event.licenseCheck :: Event.createSessionDir sid ::
                   Event.writeKeyId sid kd.id ::
                   (Event.saveUpload :: Event.createTempDir :: Event.extractAll ::
                     (storeImages uuid sid (addKey ServerState.init sid kd.id).counter
                       (u.filter qualifies)).2.1 ++ [Event.removeTempDir])))
                (laterSteps env sid (u2 :: t2))).2 :=
            laterSteps_writeArchive cfg uuid env sid kd.id (u2 :: t2) _ _ _
              (by simp) hs2
          have halign : ("key_id.txt" ::
              (([] ++ (storeImages uuid sid (addKey ServerState.init sid kd.id).counter
                  (u.filter qualifies)).1).map Prod.fst ++
                namesFrom uuid ((storeImages uuid sid
                  (addKey ServerState.init sid kd.id).counter (u.filter qualifies)).2.2)
                  (totalQualifying (u2 :: t2))) : List String) =
              "key_id.txt" :: namesFrom uuid 0 (totalQualifying (u :: u2 :: t2)) := by
            rw [storeImages_counter]
            rw [show totalQualifying (u :: u2 :: t2) =
                (u.filter qualifies).length + totalQualifying (u2 :: t2) from by
              simp [totalQualifying]]
            rw [namesFrom_append]
            simp [storeImages_fst, addKey, ServerState.init]
          rw [halign] at hihres
          show Event.writeArchive sid
              (package_entries ("key_id.txt" ::
                namesFrom uuid 0 (totalQualifying (u :: u2 :: t2)))) ∈
            (List.foldl (runStep cfg uuid)
              (runStep cfg uuid (ServerState.init, [])
                (env, ⟨some key, sid, true, false, some (.ok u)⟩))
              (laterSteps env sid (u2 :: t2))).2
          rw [hrs]
          exact hihres

/-- Witness for c9_accumulation: a two-unit session with one qualifying
image per unit yields an archive of exactly two distinct entries. -/
theorem c9_accumulation_witness :
    ∃ entries,
      Event.writeArchive "s" entries ∈
        (run (some "A") Nat.repr
          (sessionSteps ⟨ServiceResp.found ⟨"k7", "active", none, 0⟩, true⟩ "s" "K"
            [[⟨"b1.png", some ⟨2048, 2048, "RGB"⟩⟩], [⟨"b2.png", some ⟨2048, 2048, "RGB"⟩⟩]])).2 ∧
      entries.length = totalQualifying
        [[⟨"b1.png", some ⟨2048, 2048, "RGB"⟩⟩], [⟨"b2.png", some ⟨2048, 2048, "RGB"⟩⟩]] ∧
      entries.Nodup :=
  c9_accumulation (some "A") Nat.repr ⟨ServiceResp.found ⟨"k7", "active", none, 0⟩, true⟩
    ⟨"k7", "active", none, 0⟩ "s" "K"
    [[⟨"b1.png", some ⟨2048, 2048, "RGB"⟩⟩], [⟨"b2.png", some ⟨2048, 2048, "RGB"⟩⟩]]
    rfl (by simp) (by decide)
